import Mathlib

/-!
Verification of the Tiny Kingdom state-store and transition-mediation core.

The development shallowly embeds the JSON world-state documents and the
functions `compact_world_state` and `save_world_state` from `src/db.py`,
`_normalize_summary` and `llm_transform_world_state` from `src/llm.py`, and
`create_kingdom` from `src/server.py`.

Python dictionaries are modelled as association lists (`JObj`) whose
reads and writes act on the first occurrence of a key, Python truthiness
and the coercions `list(x or [])`, `dict(x or \x7b\x7d)`, `int(x or 0)` are
modelled explicitly, and a Python exception is modelled by `Option.none`.
JSON numbers are modelled as integers (no floats appear in any claim).
`json.dumps(ws, ensure_ascii=False)` is modelled by `jsonDumps`, including
the default `", "` and `": "` separators and the string escaping rules, so
that serialized sizes agree with the source character for character.
-/

set_option maxRecDepth 100000

/-- A JSON value, the type of the world-state documents handled by the
program. Numbers are modelled as integers. -/
inductive JSON where
  | null
  | bool (b : Bool)
  | num (n : Int)
  | str (s : String)
  | arr (elems : List JSON)
  | obj (fields : List (String × JSON))

/-- A Python dict with string keys, as an association list. Reads and
writes act on the first occurrence of a key, so a list with duplicate keys
behaves like the dict holding the first binding of every key. -/
abbrev JObj := List (String × JSON)

/-- Python truthiness of a JSON value: `None`, `False`, `0`, `""`, `[]`
and `\x7b\x7d` are falsy, everything else is truthy. -/
def pyTruthy : JSON → Bool
  | .null => false
  | .bool b => b
  | .num n => n != 0
  | .str s => !s.isEmpty
  | .arr xs => !xs.isEmpty
  | .obj kvs => !kvs.isEmpty

/-- First binding of a key in an association list, `none` when absent.
Models a Python dict read. -/
def lookup (k : String) : JObj → Option JSON
  | [] => none
  | (k', v) :: rest => if k' = k then some v else lookup k rest

/-- Models `d.get(k)`: the stored value, or `None` when the key is absent. -/
def getD (ws : JObj) (k : String) : JSON :=
  (lookup k ws).getD .null

/-- Models `d[k] = v`: replaces the first binding of `k` in place, or
appends a new binding at the end when `k` is absent. -/
def setKey (k : String) (v : JSON) : JObj → JObj
  | [] => [(k, v)]
  | (k', v') :: rest => if k' = k then (k, v) :: rest else (k', v') :: setKey k v rest

/-- Models `d.setdefault(k, v)`: inserts `(k, v)` at the end only when `k`
is absent; an existing binding (whatever its value) is kept. -/
def setDefault (k : String) (v : JSON) (ws : JObj) : JObj :=
  match lookup k ws with
  | some _ => ws
  | none => ws ++ [(k, v)]

/-- Models `list(x or [])`: a falsy value gives `[]`; a list gives its
elements, a string its characters, a dict its keys; `list()` of a truthy
number or boolean raises `TypeError`, modelled as `none`. -/
def pyListCoerce (v : JSON) : Option (List JSON) :=
  if pyTruthy v = false then some [] else
  match v with
  | .arr xs => some xs
  | .str s => some (s.data.map (fun c => .str (String.mk [c])))
  | .obj kvs => some (kvs.map (fun p => .str p.1))
  | _ => none

/-- One key-value pair extracted from an element of an iterable handed to
`dict()`: a two-element list with a string key, a two-character string
(its two characters), or a two-field mapping (Python iterates mappings by
their keys). A two-element list whose key is a list or a dict is
unhashable and makes `dict()` raise, as does any element of the wrong
length and any non-iterable element; all of those are `none`. A
two-element list whose key is `None`, a boolean or a number builds a
Python dict with a non-string key, which the string-keyed `JObj`
representation cannot hold; that (representable-input, unrepresentable-
output) case is also left at `none`, so the theorems conditioned on a
successful coercion simply do not cover it. -/
def pyPairOf : JSON → Option (String × JSON)
  | .arr [.str k, v] => some (k, v)
  | .str s =>
    match s.data with
    | [c1, c2] => some (String.mk [c1], .str (String.mk [c2]))
    | _ => none
  | .obj [(k1, _), (k2, _)] => some (k1, .str k2)
  | _ => none

/-- The loop of `dict(iterable)`: insert each extracted pair in order,
replacing the value of an existing key in place (Python keeps the first
insertion position) and appending new keys at the end. -/
def pyDictOfPairs : List JSON → JObj → Option JObj
  | [], acc => some acc
  | e :: rest, acc =>
    match pyPairOf e with
    | none => none
    | some (k, v) => pyDictOfPairs rest (setKey k v acc)

/-- Models `dict(x or \x7b\x7d)`: a falsy value gives the empty dict, a
dict gives itself, and a list is accepted when every element yields a
key-value pair (see `pyPairOf`), as Python `dict()` does with iterables
of pairs. A non-empty string iterates into one-character elements, so
`dict()` of one always raises; numbers and booleans are not iterable.
Every raise is modelled as `none`. -/
def pyDictCoerce (v : JSON) : Option JObj :=
  if pyTruthy v = false then some [] else
  match v with
  | .obj kvs => some kvs
  | .arr elems => pyDictOfPairs elems []
  | _ => none

/-- Digit run to a natural number; `none` on a non-digit. -/
def parseDigitsAux : List Char → Nat → Option Nat
  | [], acc => some acc
  | c :: cs, acc => if c.isDigit then parseDigitsAux cs (acc * 10 + (c.toNat - 48)) else none

/-- Models `int(s)` on a string: optional surrounding whitespace, optional
sign, then decimal digits; anything else raises, modelled as `none`.
(Pythonic underscore digit grouping and non-ASCII digits are not
modelled; they are also treated as a failure.) -/
def parsePyInt (s : String) : Option Int :=
  match s.trim.data with
  | [] => none
  | '+' :: [] => none
  | '-' :: [] => none
  | '+' :: c :: cs => (parseDigitsAux (c :: cs) 0).map (fun n => (n : Int))
  | '-' :: c :: cs => (parseDigitsAux (c :: cs) 0).map (fun n => -(n : Int))
  | c :: cs => (parseDigitsAux (c :: cs) 0).map (fun n => (n : Int))

/-- Models `int(x or 0)`: a falsy value gives `0`; otherwise `int()` of a
number is itself, of `True` is `1`, of a numeric string is its value, and
of anything else raises, modelled as `none`. -/
def pyIntCoerce (v : JSON) : Option Int :=
  if pyTruthy v = false then some 0 else
  match v with
  | .num n => some n
  | .bool _ => some 1
  | .str s => parsePyInt s
  | _ => none

/-- Models the Python slice `xs[-n:]`: the last `n` elements (all of them
when the list is shorter than `n`). -/
def takeLast (n : Nat) (xs : List α) : List α := xs.drop (xs.length - n)

/-- Models the Python slice `s[:n]` on a string: the first `n` characters
(code points). -/
def takeChars (s : String) (n : Nat) : String := String.mk (s.data.take n)

/-- Lowercase hexadecimal digit. -/
def hexDigit (n : Nat) : Char := if n < 10 then Char.ofNat (48 + n) else Char.ofNat (87 + n)

/-- Escaping of one character inside a JSON string literal, as performed
by `json.dumps(..., ensure_ascii=False)`: quote, backslash and control
characters are escaped, everything else is emitted verbatim. -/
def escapeChar (c : Char) : String :=
  if c = '"' then "\\\""
  else if c = '\\' then "\\\\"
  else if c = '\n' then "\\n"
  else if c = '\r' then "\\r"
  else if c = '\t' then "\\t"
  else if c.toNat = 8 then "\\b"
  else if c.toNat = 12 then "\\f"
  else if c.toNat < 32 then "\\u00" ++ String.mk [hexDigit (c.toNat / 16), hexDigit (c.toNat % 16)]
  else String.mk [c]

/-- Escaping of a whole character sequence. -/
def escapeString : List Char → String
  | [] => ""
  | c :: cs => escapeChar c ++ escapeString cs

/-- A JSON string literal as serialized by `json.dumps`. -/
def dumpsStr (s : String) : String := "\"" ++ escapeString s.data ++ "\""

mutual

/-- Models `json.dumps(v, ensure_ascii=False)` with the default
separators `", "` and `": "`. -/
def jsonDumps : JSON → String
  | .null => "null"
  | .bool true => "true"
  | .bool false => "false"
  | .num n => toString n
  | .str s => dumpsStr s
  | .arr [] => "[]"
  | .arr (x :: xs) => "[" ++ jsonDumps x ++ dumpsElems xs ++ "]"
  | .obj [] => "\x7b\x7d"
  | .obj ((k, v) :: kvs) => "\x7b" ++ dumpsStr k ++ ": " ++ jsonDumps v ++ dumpsFields kvs ++ "\x7d"

/-- Serialization of the tail of a JSON array: `", "` before every element. -/
def dumpsElems : List JSON → String
  | [] => ""
  | x :: xs => ", " ++ jsonDumps x ++ dumpsElems xs

/-- Serialization of the tail of a JSON object: `", "` before every field. -/
def dumpsFields : JObj → String
  | [] => ""
  | (k, v) :: kvs => ", " ++ dumpsStr k ++ ": " ++ jsonDumps v ++ dumpsFields kvs

end

/-- `MAX_JSON_BYTES` from `src/db.py`. -/
def MAX_JSON_BYTES : Nat := 200000

/-- `MAX_EVENTS` from `src/db.py`. -/
def MAX_EVENTS : Nat := 200

/-- `KEEP_EVENTS` from `src/db.py`. -/
def KEEP_EVENTS : Nat := 100

/-- Stage 1 of `compact_world_state` (`src/db.py` lines 40-48): coerce
`events_log` to a list; when its length exceeds `MAX_EVENTS`, keep the
last `KEEP_EVENTS` entries and add the removed count to
`events_log_compacted`. Returns the updated dict together with the local
`events` list that the source keeps for stage 3. -/
def compactStage1 (state : JObj) : Option (JObj × List JSON) :=
  match pyListCoerce (getD state "events_log") with
  | none => none
  | some events =>
    if events.length > MAX_EVENTS then
      let removed : Int := (events.length : Int) - (KEEP_EVENTS : Int)
      let events' := takeLast KEEP_EVENTS events
      let ws := setKey "events_log" (.arr events') state
      match pyIntCoerce (getD ws "events_log_compacted") with
      | none => none
      | some prev => some (setKey "events_log_compacted" (.num (prev + removed)) ws, events')
    else some (state, events)

/-- The clamp of one context key (`src/db.py` lines 52-55): a string value
longer than 300 characters is truncated to its first 300 characters. -/
def clampCtxKey (key : String) (ctx : JObj) : JObj :=
  match lookup key ctx with
  | some (.str val) => if val.length > 300 then setKey key (.str (takeChars val 300)) ctx else ctx
  | _ => ctx

/-- Stage 2 of `compact_world_state` (`src/db.py` lines 50-56): coerce
`context` to a dict, clamp `weather` then `news`, and write the result
back under `context` (the key is written even when nothing changed). -/
def compactStage2 (ws : JObj) : Option JObj :=
  match pyDictCoerce (getD ws "context") with
  | none => none
  | some ctx => some (setKey "context" (.obj (clampCtxKey "news" (clampCtxKey "weather" ctx))) ws)

/-- Stage 3 of `compact_world_state` (`src/db.py` lines 58-70): when the
serialized size exceeds `MAX_JSON_BYTES` and the local `events` list from
stage 1 is non-empty, keep only its last 25 entries and add the extra
removed count to `events_log_compacted`. In this model `jsonDumps` is
total, so the `except` branch of the source (returning the post-stage-2
dict when serialization fails) is unreachable. -/
def compactStage3 (ws : JObj) (events : List JSON) : Option JObj :=
  if (jsonDumps (.obj ws)).length > MAX_JSON_BYTES then
    if events.isEmpty then some ws
    else
      let keep := takeLast 25 events
      let extra_removed : Int := (events.length : Int) - (keep.length : Int)
      let ws' := setKey "events_log" (.arr keep) ws
      match pyIntCoerce (getD ws' "events_log_compacted") with
      | none => none
      | some prev => some (setKey "events_log_compacted" (.num (prev + max 0 extra_removed)) ws')
  else some ws

/-- The document produced by stages 1 and 2 of `compact_world_state`,
together with the local `events` list; this is the value whose serialized
size stage 3 inspects. -/
def postStage2 (state : JObj) : Option (JObj × List JSON) :=
  match compactStage1 state with
  | none => none
  | some (ws, events) =>
    match compactStage2 ws with
    | none => none
    | some ws2 => some (ws2, events)

/-- `compact_world_state` from `src/db.py`: stages 1-3 in order; `none`
models a raised exception (possible only through the coercions). -/
def compact_world_state (state : JObj) : Option JObj :=
  match postStage2 state with
  | none => none
  | some (ws2, events) => compactStage3 ws2 events

/-- The row written to the `kingdom` table by `save_world_state`. -/
structure KingdomRecord where
  world_state : JObj
  last_updated : String

/-- `save_world_state` from `src/db.py`: compacts the given state and
upserts it with a fresh timestamp, which is passed in here since the model
has no clock. -/
def save_world_state (now : String) (updated_world_state : JObj) : Option KingdomRecord :=
  (compact_world_state updated_world_state).map (fun c => ⟨c, now⟩)

example : compact_world_state [] = some [("context", .obj [])] := rfl

example : compact_world_state [("day", .num 3)] = some [("day", .num 3), ("context", .obj [])] := rfl

example :
    compact_world_state [("events_log", .arr (List.replicate 205 .null))] =
      some [("events_log", .arr (List.replicate 100 JSON.null)),
            ("events_log_compacted", .num 105), ("context", .obj [])] := rfl

example : compact_world_state [("context", .num 1)] = none := rfl

example :
    compact_world_state [("context", .arr [.arr [.str "a", .num 1]])] =
      some [("context", .obj [("a", .num 1)])] := rfl

example :
    compact_world_state [("context", .arr [.str "ab"])] =
      some [("context", .obj [("a", .str "b")])] := rfl

example : compact_world_state [("context", .str "ab")] = none := rfl

/-- One left-to-right pass of Python `str.replace` for a non-empty pattern
`p :: ps`: wherever the pattern matches, emit `rep` and continue after the
match; otherwise copy one character. The `Nat` fuel makes the recursion
structural; `replaceList` supplies fuel equal to the input length, which
is enough because every step consumes at least one input character while
spending exactly one unit of fuel. -/
def replaceFuel (p : Char) (ps rep : List Char) : Nat → List Char → List Char
  | _, [] => []
  | 0, l => l
  | n + 1, c :: cs =>
    if (p :: ps).isPrefixOf (c :: cs) then rep ++ replaceFuel p ps rep n (cs.drop ps.length)
    else c :: replaceFuel p ps rep n cs

/-- Python `str.replace` on character lists, for a non-empty pattern. -/
def replaceList (p : Char) (ps rep : List Char) (l : List Char) : List Char :=
  replaceFuel p ps rep l.length l

/-- Models `s.replace(pat, rep)` for the non-empty patterns used by
`_normalize_summary`. An empty pattern returns the string unchanged (no
call site uses one). -/
def pyReplace (s pat rep : String) : String :=
  match pat.data with
  | [] => s
  | p :: ps => String.mk (replaceList p ps rep.data s.data)

/-- Whether a non-empty pattern `p :: ps` occurs in the list: models
Python `pat in s`. -/
def hasPat (p : Char) (ps : List Char) : List Char → Bool
  | [] => false
  | c :: cs => (p :: ps).isPrefixOf (c :: cs) || hasPat p ps cs

/-- The `while "  " in t: t = t.replace("  ", " ")` loop of
`_normalize_summary`. The `Nat` fuel makes the recursion structural;
fuel equal to the initial length is enough, because every iteration that
runs shortens the list by at least one character, so at most `length - 1`
iterations can ever run. -/
def collapseFuel : Nat → List Char → List Char
  | 0, l => l
  | n + 1, l =>
    if hasPat ' ' [' '] l then collapseFuel n (replaceList ' ' [' '] [' '] l) else l

/-- The characters stripped by Python `str.strip()` (the ASCII ones;
other Unicode whitespace does not appear in any claim). -/
def pyIsSpace (c : Char) : Bool :=
  c = ' ' || c = '\t' || c = '\n' || c = '\r' || c.toNat = 11 || c.toNat = 12

/-- Models `s.rstrip()` on a character list. -/
def rstripChars (l : List Char) : List Char :=
  (l.reverse.dropWhile pyIsSpace).reverse

/-- Models `s.strip()` on a character list. -/
def stripChars (l : List Char) : List Char :=
  rstripChars (l.dropWhile pyIsSpace)

/-- `_normalize_summary` from `src/llm.py`: newlines and carriage returns
become spaces, bullet markers are removed, runs of spaces are collapsed,
the result is stripped, and anything longer than `max_len` is cut to
`max_len - 1` characters, right-stripped and suffixed with a single
ellipsis character. The source checks `isinstance(text, str)` first; the
model types `text` as a string, so that branch cannot fire. -/
def _normalize_summary (text : String) (max_len : Nat) : String :=
  let t := pyReplace (pyReplace text "\n" " ") "\r" " "
  let t := pyReplace t "•" ""
  let t := pyReplace t "- " ""
  let t := pyReplace t "– " ""
  let t := pyReplace t "— " ""
  let t := String.mk (collapseFuel t.data.length t.data)
  let t := String.mk (stripChars t.data)
  if t.data.length > max_len then String.mk (rstripChars (t.data.take (max_len - 1)) ++ ['…']) else t

/-- The literal returned by `llm_transform_world_state` when the raw reply
fails JSON parsing (`src/llm.py` line 105). -/
def parseFailMsg : String := "An update occurred, but I couldn\x27t parse details."

/-- The fallback summary when `updated_world_state` and `summary` are both
unusable (`src/llm.py` line 113). -/
def noChangesMsg : String := "No changes were applied."

/-- The fallback summary when the state was usable but `summary` was not
(`src/llm.py` line 116). -/
def stirsMsg : String := "The kingdom stirs, but nothing noteworthy happened."

/-- The check `isinstance(summary, str) and summary` from `src/llm.py`:
a summary is usable when it is a non-empty string. -/
def isValidSummary : JSON → Bool
  | .str s => !s.isEmpty
  | _ => false

/-- The raw summary chosen by lines 107-116 of `src/llm.py`, before
normalization: keep a usable reply summary; when `updated_world_state` is
unusable an unusable summary becomes `noChangesMsg`, otherwise an unusable
summary becomes `stirsMsg`. -/
def chooseSummary (updated_world_state summary : JSON) : String :=
  let summary1 :=
    match updated_world_state with
    | .obj _ => summary
    | _ => if isValidSummary summary then summary else .str noChangesMsg
  match summary1 with
  | .str s => if s.isEmpty then stirsMsg else s
  | _ => stirsMsg

/-- `llm_transform_world_state` from `src/llm.py`, with the network call
abstracted away: `reply` is the outcome of `json.loads` on the raw reply
(`none` when parsing raised). A reply that parses to a non-dict value
makes `parsed.get(...)` raise `AttributeError`, which nothing catches;
that raise is modelled as `none`. -/
def llm_transform_world_state (current_world_state : JObj) (reply : Option JSON) :
    Option (JObj × String) :=
  match reply with
  | none => some (current_world_state, parseFailMsg)
  | some (.obj kvs) =>
    let updated_world_state := getD kvs "updated_world_state"
    let summary := getD kvs "summary"
    let next :=
      match updated_world_state with
      | .obj o => o
      | _ => current_world_state
    some (next, _normalize_summary (chooseSummary updated_world_state summary) 220)
  | some _ => none

/-- The state handed to `save_world_state` by `create_kingdom`
(`src/server.py` lines 183-196): the mediator is called on the empty
state (the currently stored state, passed here as `stored_state`, is
never consulted), then `setdefault` ensures a `kingdom_name` binding. The
`isinstance(updated_state, dict)` guards of the source are always true in
the model, where the mediated state is already a dict. -/
def create_kingdom (kingdom_name : String) (_stored_state : JObj) (reply : Option JSON) :
    Option JObj :=
  match llm_transform_world_state [] reply with
  | none => none
  | some (updated_state, _summary) => some (setDefault "kingdom_name" (.str kingdom_name) updated_state)

example : _normalize_summary "Hi" 220 = "Hi" := rfl

example : _normalize_summary "--  x" 220 = "- x" := rfl

example : _normalize_summary "- x" 220 = "x" := rfl

example : _normalize_summary "  a •b\nc   d  " 220 = "a b c d" := rfl

example : llm_transform_world_state [("a", .num 1)] none = some ([("a", .num 1)], parseFailMsg) := rfl

example :
    llm_transform_world_state [("a", .num 1)] (some (.obj [("summary", .str "Hi")])) =
      some ([("a", .num 1)], "Hi") := rfl

example : llm_transform_world_state [] (some (.num 5)) = none := rfl

example :
    create_kingdom "Alpha" [("x", .null)]
      (some (.obj [("updated_world_state", .obj []), ("summary", .str "ok")])) =
      some [("kingdom_name", .str "Alpha")] := rfl

theorem lookup_setKey_self (k : String) (v : JSON) (l : JObj) :
    lookup k (setKey k v l) = some v := by
  induction l with
  | nil => simp [setKey, lookup]
  | cons p rest ih =>
    obtain ⟨k', v'⟩ := p
    by_cases h : k' = k
    · simp [setKey, h, lookup]
    · simp [setKey, h, lookup, ih]

theorem lookup_setKey_ne (k k' : String) (v : JSON) (l : JObj) (h : k ≠ k') :
    lookup k (setKey k' v l) = lookup k l := by
  have h' : ¬(k' = k) := fun hh => h hh.symm
  induction l with
  | nil => simp [setKey, lookup, h']
  | cons p rest ih =>
    obtain ⟨k'', v''⟩ := p
    by_cases hk : k'' = k'
    · subst hk
      simp [setKey, lookup, h']
    · simp [setKey, lookup, hk, ih]

theorem setKey_of_lookup (k : String) (v : JSON) (l : JObj) (h : lookup k l = some v) :
    setKey k v l = l := by
  induction l with
  | nil => simp [lookup] at h
  | cons p rest ih =>
    obtain ⟨k', v'⟩ := p
    by_cases hk : k' = k
    · subst hk
      simp [lookup] at h
      simp [setKey, h]
    · simp [lookup, hk] at h
      simp [setKey, hk, ih h]

theorem getD_setKey_self (k : String) (v : JSON) (l : JObj) :
    getD (setKey k v l) k = v := by
  simp [getD, lookup_setKey_self]

theorem getD_setKey_ne (k k' : String) (v : JSON) (l : JObj) (h : k ≠ k') :
    getD (setKey k' v l) k = getD l k := by
  simp [getD, lookup_setKey_ne k k' v l h]

theorem takeLast_length (n : Nat) (l : List α) : (takeLast n l).length = min n l.length := by
  simp [takeLast]
  omega

theorem takeLast_of_le (n : Nat) (l : List α) (h : l.length ≤ n) : takeLast n l = l := by
  simp [takeLast, Nat.sub_eq_zero_of_le h]

theorem pyListCoerce_arr (l : List JSON) : pyListCoerce (.arr l) = some l := by
  cases l <;> simp [pyListCoerce, pyTruthy]

theorem pyDictCoerce_obj (l : JObj) : pyDictCoerce (.obj l) = some l := by
  cases l <;> simp [pyDictCoerce, pyTruthy]

theorem pyIntCoerce_num (n : Int) : pyIntCoerce (.num n) = some n := by
  by_cases h : n = 0 <;> simp [pyIntCoerce, pyTruthy, h]

theorem takeChars_length (s : String) (n : Nat) : (takeChars s n).length = min n s.length := by
  show (s.data.take n).length = min n s.data.length
  exact List.length_take n s.data

theorem clampCtxKey_lookup_ne (k key : String) (ctx : JObj) (h : k ≠ key) :
    lookup k (clampCtxKey key ctx) = lookup k ctx := by
  unfold clampCtxKey
  split
  · split
    · rw [lookup_setKey_ne k key _ ctx h]
    · rfl
  · rfl

theorem clampCtxKey_clamped (key : String) (ctx : JObj) (s : String)
    (h : lookup key (clampCtxKey key ctx) = some (.str s)) : s.length ≤ 300 := by
  unfold clampCtxKey at h
  split at h
  · rename_i val heq
    split at h
    · rw [lookup_setKey_self] at h
      cases h
      rw [takeChars_length]
      omega
    · rw [heq] at h
      cases h
      omega
  · rename_i hne
    rw [h] at hne
    exact absurd rfl (hne s)

theorem clampCtxKey_of_clamped (key : String) (ctx : JObj)
    (h : ∀ s, lookup key ctx = some (.str s) → s.length ≤ 300) :
    clampCtxKey key ctx = ctx := by
  unfold clampCtxKey
  split
  · rename_i val heq
    rw [if_neg]
    simp only [not_lt]
    exact h val heq
  · rfl

theorem clampWN_idem (ctx : JObj) :
    clampCtxKey "news" (clampCtxKey "weather" (clampCtxKey "news" (clampCtxKey "weather" ctx))) =
      clampCtxKey "news" (clampCtxKey "weather" ctx) := by
  have hw : clampCtxKey "weather" (clampCtxKey "news" (clampCtxKey "weather" ctx)) =
      clampCtxKey "news" (clampCtxKey "weather" ctx) := by
    apply clampCtxKey_of_clamped
    intro s hs
    rw [clampCtxKey_lookup_ne "weather" "news" _ (by decide)] at hs
    exact clampCtxKey_clamped "weather" ctx s hs
  rw [hw]
  apply clampCtxKey_of_clamped
  intro s hs
  exact clampCtxKey_clamped "news" _ s hs

theorem compactStage1_inv (s ws1 : JObj) (ev : List JSON)
    (h : compactStage1 s = some (ws1, ev)) :
    ∃ es, pyListCoerce (getD s "events_log") = some es ∧
      ((es.length ≤ MAX_EVENTS ∧ ws1 = s ∧ ev = es) ∨
       (MAX_EVENTS < es.length ∧ ev = takeLast KEEP_EVENTS es ∧
        ∃ c, pyIntCoerce (getD s "events_log_compacted") = some c ∧
          ws1 = setKey "events_log_compacted"
                  (.num (c + ((es.length : Int) - (KEEP_EVENTS : Int))))
                  (setKey "events_log" (.arr (takeLast KEEP_EVENTS es)) s))) := by
  simp only [compactStage1] at h
  split at h
  · cases h
  · rename_i es heq
    refine ⟨es, heq, ?_⟩
    split at h
    · rename_i hlen
      rw [getD_setKey_ne "events_log_compacted" "events_log" _ s (by decide)] at h
      split at h
      · cases h
      · rename_i c hc
        injection h with h
        injection h with h1 h2
        exact Or.inr ⟨hlen, h2.symm, c, hc, h1.symm⟩
    · rename_i hlen
      injection h with h
      injection h with h1 h2
      exact Or.inl ⟨by omega, h1.symm, h2.symm⟩

theorem compactStage1_no_trim (s : JObj) (es : List JSON)
    (h1 : pyListCoerce (getD s "events_log") = some es) (h2 : es.length ≤ MAX_EVENTS) :
    compactStage1 s = some (s, es) := by
  simp only [compactStage1, h1]
  rw [if_neg (by omega)]

theorem compactStage2_inv (ws ws2 : JObj) (h : compactStage2 ws = some ws2) :
    ∃ ctx, pyDictCoerce (getD ws "context") = some ctx ∧
      ws2 = setKey "context" (.obj (clampCtxKey "news" (clampCtxKey "weather" ctx))) ws := by
  simp only [compactStage2] at h
  split at h
  · cases h
  · rename_i ctx heq
    injection h with h
    exact ⟨ctx, heq, h.symm⟩

theorem compactStage2_of (ws : JObj) (ctx : JObj) (h : pyDictCoerce (getD ws "context") = some ctx) :
    compactStage2 ws =
      some (setKey "context" (.obj (clampCtxKey "news" (clampCtxKey "weather" ctx))) ws) := by
  simp only [compactStage2, h]

theorem compactStage3_inv (ws : JObj) (ev : List JSON) (t : JObj)
    (h : compactStage3 ws ev = some t) :
    ((jsonDumps (.obj ws)).length ≤ MAX_JSON_BYTES ∧ t = ws) ∨
    (MAX_JSON_BYTES < (jsonDumps (.obj ws)).length ∧ ev = [] ∧ t = ws) ∨
    (MAX_JSON_BYTES < (jsonDumps (.obj ws)).length ∧ ev ≠ [] ∧
      ∃ c2, pyIntCoerce (getD ws "events_log_compacted") = some c2 ∧
        t = setKey "events_log_compacted"
              (.num (c2 + max 0 ((ev.length : Int) - ((takeLast 25 ev).length : Int))))
              (setKey "events_log" (.arr (takeLast 25 ev)) ws)) := by
  simp only [compactStage3] at h
  split at h
  · rename_i hsz
    split at h
    · rename_i hev
      injection h with h
      exact Or.inr (Or.inl ⟨by omega, List.isEmpty_iff.mp hev, h.symm⟩)
    · rename_i hev
      rw [getD_setKey_ne "events_log_compacted" "events_log" _ ws (by decide)] at h
      split at h
      · cases h
      · rename_i c2 hc2
        injection h with h
        refine Or.inr (Or.inr ⟨by omega, ?_, c2, hc2, h.symm⟩)
        intro hnil
        rw [hnil] at hev
        exact hev rfl
  · rename_i hsz
    injection h with h
    exact Or.inl ⟨by omega, h.symm⟩

theorem compactStage3_small (ws : JObj) (ev : List JSON)
    (h : (jsonDumps (.obj ws)).length ≤ MAX_JSON_BYTES) :
    compactStage3 ws ev = some ws := by
  simp only [compactStage3]
  rw [if_neg (by omega)]

theorem compact_inv (s t : JObj) (h : compact_world_state s = some t) :
    ∃ ws1 ev ws2, compactStage1 s = some (ws1, ev) ∧ compactStage2 ws1 = some ws2 ∧
      postStage2 s = some (ws2, ev) ∧ compactStage3 ws2 ev = some t := by
  unfold compact_world_state at h
  cases hpost : postStage2 s with
  | none =>
    simp only [hpost] at h
    exact Option.noConfusion h
  | some p =>
    obtain ⟨ws2, ev2⟩ := p
    simp only [hpost] at h
    unfold postStage2 at hpost
    cases hs1 : compactStage1 s with
    | none =>
      simp only [hs1] at hpost
      exact Option.noConfusion hpost
    | some q =>
      obtain ⟨ws1, ev1⟩ := q
      simp only [hs1] at hpost
      cases hs2 : compactStage2 ws1 with
      | none =>
        simp only [hs2] at hpost
        exact Option.noConfusion hpost
      | some ws2' =>
        simp only [hs2] at hpost
        injection hpost with hpost
        injection hpost with he1 he2
        subst he1
        subst he2
        exact ⟨ws1, ev1, ws2', rfl, hs2, rfl, h⟩

theorem compact_of_stages (s ws1 ws2 : JObj) (ev : List JSON) (t : JObj)
    (h1 : compactStage1 s = some (ws1, ev)) (h2 : compactStage2 ws1 = some ws2)
    (h3 : compactStage3 ws2 ev = some t) :
    compact_world_state s = some t := by
  unfold compact_world_state postStage2
  simp only [h1, h2]
  exact h3

theorem norm_noChanges : _normalize_summary noChangesMsg 220 = noChangesMsg := rfl

theorem norm_parseFail : _normalize_summary parseFailMsg 220 = parseFailMsg := rfl

theorem noChanges_isEmpty : noChangesMsg.isEmpty = false := rfl

theorem lookup_append_right (k : String) (l1 l2 : JObj) (h : lookup k l1 = none) :
    lookup k (l1 ++ l2) = lookup k l2 := by
  induction l1 with
  | nil => rfl
  | cons p rest ih =>
    obtain ⟨k', v'⟩ := p
    rw [List.cons_append]
    simp only [lookup] at h ⊢
    by_cases hk : k' = k
    · rw [if_pos hk] at h
      exact Option.noConfusion h
    · rw [if_neg hk] at h
      rw [if_neg hk]
      exact ih h

/-- The raw summary that `llm_transform_world_state` feeds to
`_normalize_summary` for a given backend reply, per the validation branches
of the spec: the parse-failure literal for an unparseable reply, and the
branch-selected summary for an object reply. (For a non-object JSON reply
the call raises, so the value here is irrelevant.) -/
def chosenRaw (reply : Option JSON) : String :=
  match reply with
  | none => parseFailMsg
  | some (.obj kvs) => chooseSummary (getD kvs "updated_world_state") (getD kvs "summary")
  | some _ => ""

theorem chooseSummary_non_obj (u sm' : JSON) (h : ∀ o, u ≠ JSON.obj o) :
    _normalize_summary (chooseSummary u sm') 220 =
      (match sm' with
       | .str sm => if sm.isEmpty then noChangesMsg else _normalize_summary sm 220
       | _ => noChangesMsg) := by
  cases u
  case obj o => exact absurd rfl (h o)
  all_goals
    cases sm' with
    | str sm =>
      by_cases hemp : sm.isEmpty
      · simp [chooseSummary, isValidSummary, hemp, noChanges_isEmpty, norm_noChanges]
      · simp [chooseSummary, isValidSummary, hemp]
    | null => simp [chooseSummary, isValidSummary, noChanges_isEmpty, norm_noChanges]
    | bool b => simp [chooseSummary, isValidSummary, noChanges_isEmpty, norm_noChanges]
    | num n => simp [chooseSummary, isValidSummary, noChanges_isEmpty, norm_noChanges]
    | arr a => simp [chooseSummary, isValidSummary, noChanges_isEmpty, norm_noChanges]
    | obj oo => simp [chooseSummary, isValidSummary, noChanges_isEmpty, norm_noChanges]

/-- C4: when the backend reply cannot be parsed as JSON at all, `mediate`
does not raise and returns the input state unchanged together with the
literal summary held by `parseFailMsg`. -/
theorem c4_parse_failure_preserves_state (current_state : JObj) :
    llm_transform_world_state current_state none = some (current_state, parseFailMsg) := rfl

/-- C3 (amended: restricted to replies that parse as JSON objects; a
reply parsing to a non-object JSON value makes `mediate` raise instead):
when `updated_world_state` is missing or not an object, `mediate` returns
exactly the input state; the summary is the normalized given summary when
that is a non-empty string, and `"No changes were applied."` otherwise. -/
theorem c3_missing_updated_state_falls_back (cs : JObj) (kvs : JObj)
    (h : ∀ o, getD kvs "updated_world_state" ≠ JSON.obj o) :
    llm_transform_world_state cs (some (.obj kvs)) =
      some (cs,
        match getD kvs "summary" with
        | .str sm => if sm.isEmpty then noChangesMsg else _normalize_summary sm 220
        | _ => noChangesMsg) := by
  simp only [llm_transform_world_state]
  rw [chooseSummary_non_obj (getD kvs "updated_world_state") (getD kvs "summary") h]

theorem c3_witness :
    llm_transform_world_state [("a", JSON.num 1)] (some (.obj [("summary", JSON.str "Hi")])) =
      some ([("a", JSON.num 1)], "Hi") := by
  have h := c3_missing_updated_state_falls_back [("a", JSON.num 1)] [("summary", JSON.str "Hi")]
    (fun o hh => JSON.noConfusion hh)
  exact h

/-- C3 counterexample: a backend reply that is valid JSON but not an
object (here the number 5) has its `updated_world_state` field missing,
yet `mediate` raises (`parsed.get` has no meaning on a number) instead of
returning the input state with a fallback summary. -/
theorem c3_counterexample : llm_transform_world_state [] (some (.num 5)) = none := rfl

/-- C8 (amended): the summary `mediate` returns always equals
`_normalize_summary` applied to the final chosen raw summary with
`max_len` 220; the normalizer is however not idempotent, so a returned
summary need not equal its own normalization. -/
theorem c8_summary_is_normalized (cs : JObj) (reply : Option JSON) (out : JObj × String)
    (h : llm_transform_world_state cs reply = some out) :
    out.2 = _normalize_summary (chosenRaw reply) 220 := by
  cases reply with
  | none =>
    simp only [llm_transform_world_state] at h
    injection h with h
    simp only [chosenRaw, norm_parseFail]
    rw [← h]
  | some parsed =>
    cases parsed with
    | obj kvs =>
      simp only [llm_transform_world_state] at h
      injection h with h
      simp only [chosenRaw]
      rw [← h]
    | null => exact Option.noConfusion h
    | bool b => exact Option.noConfusion h
    | num n => exact Option.noConfusion h
    | str s => exact Option.noConfusion h
    | arr a => exact Option.noConfusion h

theorem c8_witness :
    ("Hi" : String) =
      _normalize_summary (chosenRaw (some (.obj [("updated_world_state", JSON.obj []),
        ("summary", JSON.str "Hi")]))) 220 :=
  c8_summary_is_normalized [] _ ([], "Hi") rfl

/-- C8 counterexample: for the reply summary `"--  x"` the returned
summary is `"- x"`, which is not a fixed point of the normalizer (a
second normalization would strip the freshly exposed bullet marker), so
returned summaries do not all equal their own normalization. -/
theorem c8_counterexample :
    llm_transform_world_state []
        (some (.obj [("updated_world_state", JSON.obj []), ("summary", JSON.str "--  x")])) =
      some ([], "- x") ∧ _normalize_summary "- x" 220 ≠ "- x" :=
  ⟨rfl, by decide⟩

/-- C9 (amended): `create_kingdom` mediates against the empty state and
never consults the stored state (first conjunct); the state it saves
always contains some `kingdom_name` binding (second conjunct); the
requested name itself is bound only when the mediated state has no
`kingdom_name` of its own, in which case it is appended (third conjunct).
An existing binding, even one differing from the request, is kept. -/
theorem c9_create_kingdom_init :
    (∀ (n : String) (r : Option JSON) (st1 st2 : JObj),
        create_kingdom n st1 r = create_kingdom n st2 r) ∧
    (∀ (n : String) (st : JObj) (r : Option JSON) (t : JObj), create_kingdom n st r = some t →
        ∃ v, lookup "kingdom_name" t = some v) ∧
    (∀ (n : String) (st : JObj) (r : Option JSON) (upd : JObj) (sm : String),
        llm_transform_world_state [] r = some (upd, sm) → lookup "kingdom_name" upd = none →
        create_kingdom n st r = some (upd ++ [("kingdom_name", .str n)])) := by
  refine ⟨fun n r st1 st2 => rfl, ?_, ?_⟩
  · intro n st r t h
    unfold create_kingdom at h
    cases hllm : llm_transform_world_state [] r with
    | none =>
      rw [hllm] at h
      exact Option.noConfusion h
    | some p =>
      obtain ⟨upd, sm⟩ := p
      rw [hllm] at h
      injection h with h
      rw [← h]
      unfold setDefault
      cases hl : lookup "kingdom_name" upd with
      | some w => exact ⟨w, hl⟩
      | none =>
        refine ⟨.str n, ?_⟩
        rw [lookup_append_right "kingdom_name" upd _ hl]
        simp [lookup]
  · intro n st r upd sm hllm hl
    simp only [create_kingdom, hllm, setDefault, hl]

theorem c9_witness :
    create_kingdom "Alpha" [("x", JSON.null)]
        (some (.obj [("updated_world_state", JSON.obj []), ("summary", JSON.str "ok")])) =
      some [("kingdom_name", JSON.str "Alpha")] :=
  c9_create_kingdom_init.2.2 "Alpha" [("x", JSON.null)] _ [] "ok" rfl rfl

/-- C9 counterexample: when the mediated state already carries a
different `kingdom_name` (here `"Zebra"`), `create_kingdom` requested
with `"Alpha"` keeps `"Zebra"`, so the requested name is not present in
the state to be saved. -/
theorem c9_counterexample :
    (create_kingdom "Alpha" []
        (some (.obj [("updated_world_state", JSON.obj [("kingdom_name", JSON.str "Zebra")]),
          ("summary", JSON.str "ok")]))).map (fun t => lookup "kingdom_name" t) =
      some (some (.str "Zebra")) ∧ ("Zebra" : String) ≠ "Alpha" :=
  ⟨rfl, by decide⟩

theorem stage1_preserves (s ws1 : JObj) (ev : List JSON) (h : compactStage1 s = some (ws1, ev))
    (k : String) (h1 : k ≠ "events_log") (h2 : k ≠ "events_log_compacted") :
    lookup k ws1 = lookup k s := by
  obtain ⟨es, hes, hcase⟩ := compactStage1_inv s ws1 ev h
  rcases hcase with ⟨_, rfl, _⟩ | ⟨_, _, c, _, rfl⟩
  · rfl
  · rw [lookup_setKey_ne k _ _ _ h2, lookup_setKey_ne k _ _ _ h1]

theorem stage3_preserves (ws2 : JObj) (ev : List JSON) (t : JObj)
    (h : compactStage3 ws2 ev = some t)
    (k : String) (h1 : k ≠ "events_log") (h2 : k ≠ "events_log_compacted") :
    lookup k t = lookup k ws2 := by
  rcases compactStage3_inv ws2 ev t h with ⟨_, rfl⟩ | ⟨_, _, rfl⟩ | ⟨_, _, c2, _, rfl⟩
  · rfl
  · rfl
  · rw [lookup_setKey_ne k _ _ _ h2, lookup_setKey_ne k _ _ _ h1]

theorem compact_context_shape (s t : JObj) (h : compact_world_state s = some t) :
    ∃ ctx, pyDictCoerce (getD s "context") = some ctx ∧
      lookup "context" t = some (.obj (clampCtxKey "news" (clampCtxKey "weather" ctx))) := by
  obtain ⟨ws1, ev, ws2, hs1, hs2, hpost, hs3⟩ := compact_inv s t h
  obtain ⟨ctx, hctx, hws2⟩ := compactStage2_inv ws1 ws2 hs2
  have hsame : getD ws1 "context" = getD s "context" := by
    unfold getD
    rw [stage1_preserves s ws1 ev hs1 "context" (by decide) (by decide)]
  rw [hsame] at hctx
  refine ⟨ctx, hctx, ?_⟩
  rw [stage3_preserves ws2 ev t hs3 "context" (by decide) (by decide)]
  rw [hws2, lookup_setKey_self]

theorem clampCtxKey_hit (key : String) (ctx : JObj) (w : String)
    (hw : lookup key ctx = some (.str w)) (hlen : 300 < w.length) :
    lookup key (clampCtxKey key ctx) = some (.str (takeChars w 300)) := by
  simp only [clampCtxKey, hw]
  rw [if_pos (by omega)]
  exact lookup_setKey_self key _ ctx

/-- C7: a `context.weather` or `context.news` string longer than 300
characters is replaced by exactly its first 300 characters (no ellipsis)
in the compacted state. -/
theorem c7_context_strings_clamped (s t ctx : JObj) (h : compact_world_state s = some t)
    (hctx : pyDictCoerce (getD s "context") = some ctx) :
    (∀ w, lookup "weather" ctx = some (.str w) → 300 < w.length →
      ∃ ctx2, lookup "context" t = some (.obj ctx2) ∧
        lookup "weather" ctx2 = some (.str (takeChars w 300))) ∧
    (∀ nw, lookup "news" ctx = some (.str nw) → 300 < nw.length →
      ∃ ctx2, lookup "context" t = some (.obj ctx2) ∧
        lookup "news" ctx2 = some (.str (takeChars nw 300))) := by
  obtain ⟨ctx', hctx', hshape⟩ := compact_context_shape s t h
  rw [hctx] at hctx'
  injection hctx' with hctx'
  subst hctx'
  constructor
  · intro w hw hlen
    refine ⟨_, hshape, ?_⟩
    rw [clampCtxKey_lookup_ne "weather" "news" _ (by decide)]
    exact clampCtxKey_hit "weather" ctx w hw hlen
  · intro nw hnw hlen
    refine ⟨_, hshape, ?_⟩
    have : lookup "news" (clampCtxKey "weather" ctx) = some (.str nw) := by
      rw [clampCtxKey_lookup_ne "news" "weather" _ (by decide)]
      exact hnw
    exact clampCtxKey_hit "news" _ nw this hlen

/-- A 500-character weather string for the scenario-D witness. -/
def w500 : String := String.mk (List.replicate 500 'w')

theorem c7_witness :
    (300 : Nat) < w500.length ∧
    (∃ ctx2, lookup "context" [("context", JSON.obj [("weather", JSON.str (takeChars w500 300))])] =
        some (.obj ctx2) ∧
      lookup "weather" ctx2 = some (.str (takeChars w500 300))) :=
  ⟨by decide,
   (c7_context_strings_clamped [("context", JSON.obj [("weather", JSON.str w500)])]
      [("context", JSON.obj [("weather", JSON.str (takeChars w500 300))])]
      [("weather", JSON.str w500)] rfl rfl).1 w500 rfl (by decide)⟩

/-- C10 (amended): compact leaves every top-level field other than
`events_log`, `events_log_compacted` and `context` bound exactly as in
the input; whenever compact succeeds, the output binds `context` to a
mapping, namely the clamped `dict()` coercion of the input `context` — a
mapping coerces to itself, a list of key-value pairs to the mapping it
builds, and a missing or falsy value to an empty mapping. Compact does
not always succeed, however: `dict()` raises on a truthy `context` it
cannot iterate into pairs, such as the number 1, and then no compacted
state exists at all. -/
theorem c10_compact_frame (s t : JObj) (h : compact_world_state s = some t) :
    (∀ k, k ≠ "events_log" → k ≠ "events_log_compacted" → k ≠ "context" →
        lookup k t = lookup k s) ∧
    (∃ ctx, pyDictCoerce (getD s "context") = some ctx ∧
        lookup "context" t = some (.obj (clampCtxKey "news" (clampCtxKey "weather" ctx)))) ∧
    (pyTruthy (getD s "context") = false → lookup "context" t = some (.obj [])) := by
  obtain ⟨ws1, ev, ws2, hs1, hs2, hpost, hs3⟩ := compact_inv s t h
  obtain ⟨ctx, hctx, hws2⟩ := compactStage2_inv ws1 ws2 hs2
  refine ⟨?_, ?_, ?_⟩
  · intro k h1 h2 h3
    rw [stage3_preserves ws2 ev t hs3 k h1 h2, hws2, lookup_setKey_ne k _ _ _ h3]
    exact stage1_preserves s ws1 ev hs1 k h1 h2
  · exact compact_context_shape s t h
  · intro hfalsy
    obtain ⟨ctx', hctx', hshape⟩ := compact_context_shape s t h
    rw [show pyDictCoerce (getD s "context") = some [] by
          simp [pyDictCoerce, hfalsy]] at hctx'
    injection hctx' with hctx'
    subst hctx'
    exact hshape

/-- C10 counterexample: on the state with `context` bound to the number
1 — a truthy value that `dict()` cannot iterate — compact raises instead
of producing a state with an empty `context` mapping, so no compacted
state exists at all and the unconditional half of the claim fails. -/
theorem c10_counterexample : compact_world_state [("context", JSON.num 1)] = none := rfl

theorem c10_witness :
    lookup "day" [("day", JSON.num 3), ("context", JSON.obj [])] =
        lookup "day" [("day", JSON.num 3)] ∧
    lookup "context" [("day", JSON.num 3), ("context", JSON.obj [])] = some (.obj []) := by
  have h := c10_compact_frame [("day", JSON.num 3)] [("day", JSON.num 3), ("context", JSON.obj [])] rfl
  exact ⟨h.1 "day" (by decide) (by decide) (by decide), h.2.2 rfl⟩

theorem takeLast_takeLast (a b : Nat) (l : List α) (h : a ≤ b) :
    takeLast a (takeLast b l) = takeLast a l := by
  unfold takeLast
  rw [List.drop_drop]
  congr 1
  rw [List.length_drop]
  omega

theorem compactStage1_trim (s : JObj) (es : List JSON) (c : Int)
    (h1 : pyListCoerce (getD s "events_log") = some es) (h2 : MAX_EVENTS < es.length)
    (hc : pyIntCoerce (getD s "events_log_compacted") = some c) :
    compactStage1 s = some
      (setKey "events_log_compacted" (.num (c + ((es.length : Int) - (KEEP_EVENTS : Int))))
        (setKey "events_log" (.arr (takeLast KEEP_EVENTS es)) s), takeLast KEEP_EVENTS es) := by
  simp only [compactStage1, h1]
  rw [if_pos (show es.length > MAX_EVENTS from h2)]
  simp only [getD_setKey_ne "events_log_compacted" "events_log" _ s (by decide), hc]

/-- C6: one compact call increases `events_log_compacted` by exactly the
number of entries removed from `events_log` (stage-1 trim plus stage-3
aggressive trim). Both trims keep a suffix of the coerced input list, so
the removed count is the difference of the list lengths; the output list
is itself a `takeLast` of the input list. -/
theorem c6_conservation (s t : JObj) (es : List JSON) (c : Int)
    (h : compact_world_state s = some t)
    (hes : pyListCoerce (getD s "events_log") = some es)
    (hc : pyIntCoerce (getD s "events_log_compacted") = some c) :
    ∃ es2 c2, pyListCoerce (getD t "events_log") = some es2 ∧
      pyIntCoerce (getD t "events_log_compacted") = some c2 ∧
      (∃ n, es2 = takeLast n es) ∧
      c2 = c + ((es.length : Int) - (es2.length : Int)) := by
  obtain ⟨ctx, hctx, _⟩ := compact_context_shape s t h
  by_cases hlen : MAX_EVENTS < es.length
  · -- stage 1 trims
    have h1 := compactStage1_trim s es c hes hlen hc
    have hctx1 : pyDictCoerce
        (getD (setKey "events_log_compacted" (.num (c + ((es.length : Int) - (KEEP_EVENTS : Int))))
          (setKey "events_log" (.arr (takeLast KEEP_EVENTS es)) s)) "context") = some ctx := by
      rw [getD_setKey_ne _ _ _ _ (by decide), getD_setKey_ne _ _ _ _ (by decide)]
      exact hctx
    have h2 := compactStage2_of _ ctx hctx1
    have hpost : postStage2 s = some
        (setKey "context" (.obj (clampCtxKey "news" (clampCtxKey "weather" ctx)))
          (setKey "events_log_compacted" (.num (c + ((es.length : Int) - (KEEP_EVENTS : Int))))
            (setKey "events_log" (.arr (takeLast KEEP_EVENTS es)) s)), takeLast KEEP_EVENTS es) := by
      simp only [postStage2, h1, h2]
    have h3 : compactStage3
        (setKey "context" (.obj (clampCtxKey "news" (clampCtxKey "weather" ctx)))
          (setKey "events_log_compacted" (.num (c + ((es.length : Int) - (KEEP_EVENTS : Int))))
            (setKey "events_log" (.arr (takeLast KEEP_EVENTS es)) s))) (takeLast KEEP_EVENTS es) =
        some t := by
      unfold compact_world_state at h
      rw [hpost] at h
      exact h
    have hlookEv : lookup "events_log"
        (setKey "context" (.obj (clampCtxKey "news" (clampCtxKey "weather" ctx)))
          (setKey "events_log_compacted" (.num (c + ((es.length : Int) - (KEEP_EVENTS : Int))))
            (setKey "events_log" (.arr (takeLast KEEP_EVENTS es)) s))) =
        some (.arr (takeLast KEEP_EVENTS es)) := by
      rw [lookup_setKey_ne _ _ _ _ (by decide), lookup_setKey_ne _ _ _ _ (by decide),
        lookup_setKey_self]
    have hlookC : lookup "events_log_compacted"
        (setKey "context" (.obj (clampCtxKey "news" (clampCtxKey "weather" ctx)))
          (setKey "events_log_compacted" (.num (c + ((es.length : Int) - (KEEP_EVENTS : Int))))
            (setKey "events_log" (.arr (takeLast KEEP_EVENTS es)) s))) =
        some (.num (c + ((es.length : Int) - (KEEP_EVENTS : Int)))) := by
      rw [lookup_setKey_ne _ _ _ _ (by decide), lookup_setKey_self]
    rcases compactStage3_inv _ _ t h3 with ⟨hsz, rfl⟩ | ⟨hsz, hnil, rfl⟩ | ⟨hsz, hne, c2', hc2', rfl⟩
    · refine ⟨takeLast KEEP_EVENTS es, c + ((es.length : Int) - (KEEP_EVENTS : Int)), ?_, ?_,
        ⟨KEEP_EVENTS, rfl⟩, ?_⟩
      · unfold getD
        rw [hlookEv]
        exact pyListCoerce_arr _
      · unfold getD
        rw [hlookC]
        exact pyIntCoerce_num _
      · rw [takeLast_length]
        unfold MAX_EVENTS at hlen
        unfold KEEP_EVENTS
        omega
    · refine ⟨takeLast KEEP_EVENTS es, c + ((es.length : Int) - (KEEP_EVENTS : Int)), ?_, ?_,
        ⟨KEEP_EVENTS, rfl⟩, ?_⟩
      · unfold getD
        rw [hlookEv]
        exact pyListCoerce_arr _
      · unfold getD
        rw [hlookC]
        exact pyIntCoerce_num _
      · rw [takeLast_length]
        unfold MAX_EVENTS at hlen
        unfold KEEP_EVENTS
        omega
    · have hc2v : c2' = c + ((es.length : Int) - (KEEP_EVENTS : Int)) := by
        rw [show getD
            (setKey "context" (.obj (clampCtxKey "news" (clampCtxKey "weather" ctx)))
              (setKey "events_log_compacted" (.num (c + ((es.length : Int) - (KEEP_EVENTS : Int))))
                (setKey "events_log" (.arr (takeLast KEEP_EVENTS es)) s))) "events_log_compacted" =
            .num (c + ((es.length : Int) - (KEEP_EVENTS : Int))) by unfold getD; rw [hlookC]; rfl,
          pyIntCoerce_num] at hc2'
        exact (Option.some.inj hc2').symm
      subst hc2v
      refine ⟨takeLast 25 es,
        c + ((es.length : Int) - (KEEP_EVENTS : Int)) +
          max 0 (((takeLast KEEP_EVENTS es).length : Int) -
            ((takeLast 25 (takeLast KEEP_EVENTS es)).length : Int)), ?_, ?_, ⟨25, rfl⟩, ?_⟩
      · unfold getD
        rw [lookup_setKey_ne _ _ _ _ (by decide), lookup_setKey_self,
          takeLast_takeLast 25 KEEP_EVENTS es (by unfold KEEP_EVENTS; omega)]
        exact pyListCoerce_arr _
      · unfold getD
        rw [lookup_setKey_self]
        exact pyIntCoerce_num _
      · rw [takeLast_takeLast 25 KEEP_EVENTS es (by unfold KEEP_EVENTS; omega)]
        simp only [takeLast_length]
        unfold MAX_EVENTS at hlen
        unfold KEEP_EVENTS
        omega
  · -- stage 1 does not trim
    have h1 := compactStage1_no_trim s es hes (by omega)
    have h2 := compactStage2_of s ctx hctx
    have hpost : postStage2 s = some
        (setKey "context" (.obj (clampCtxKey "news" (clampCtxKey "weather" ctx))) s, es) := by
      simp only [postStage2, h1, h2]
    have h3 : compactStage3
        (setKey "context" (.obj (clampCtxKey "news" (clampCtxKey "weather" ctx))) s) es =
        some t := by
      unfold compact_world_state at h
      rw [hpost] at h
      exact h
    have hlookEv : lookup "events_log"
        (setKey "context" (.obj (clampCtxKey "news" (clampCtxKey "weather" ctx))) s) =
        lookup "events_log" s := lookup_setKey_ne _ _ _ _ (by decide)
    have hlookC : lookup "events_log_compacted"
        (setKey "context" (.obj (clampCtxKey "news" (clampCtxKey "weather" ctx))) s) =
        lookup "events_log_compacted" s := lookup_setKey_ne _ _ _ _ (by decide)
    rcases compactStage3_inv _ _ t h3 with ⟨hsz, rfl⟩ | ⟨hsz, hnil, rfl⟩ | ⟨hsz, hne, c2', hc2', rfl⟩
    · refine ⟨es, c, ?_, ?_, ⟨es.length, (takeLast_of_le _ _ (le_refl _)).symm⟩, by omega⟩
      · unfold getD
        rw [hlookEv]
        exact hes
      · unfold getD
        rw [hlookC]
        exact hc
    · refine ⟨es, c, ?_, ?_, ⟨es.length, (takeLast_of_le _ _ (le_refl _)).symm⟩, by omega⟩
      · unfold getD
        rw [hlookEv]
        exact hes
      · unfold getD
        rw [hlookC]
        exact hc
    · have hc2v : c = c2' := by
        rw [show pyIntCoerce (getD
            (setKey "context" (.obj (clampCtxKey "news" (clampCtxKey "weather" ctx))) s)
            "events_log_compacted") = some c by unfold getD; rw [hlookC]; exact hc] at hc2'
        exact Option.some.inj hc2'
      subst hc2v
      refine ⟨takeLast 25 es,
        c + max 0 ((es.length : Int) - ((takeLast 25 es).length : Int)), ?_, ?_, ⟨25, rfl⟩, ?_⟩
      · unfold getD
        rw [lookup_setKey_ne _ _ _ _ (by decide), lookup_setKey_self]
        exact pyListCoerce_arr _
      · unfold getD
        rw [lookup_setKey_self]
        exact pyIntCoerce_num _
      · simp only [takeLast_length]
        omega

theorem c6_witness :
    ∃ es2 c2,
      pyListCoerce (getD [("events_log", JSON.arr (List.replicate 100 JSON.null)),
        ("events_log_compacted", JSON.num 105), ("context", JSON.obj [])] "events_log") = some es2 ∧
      pyIntCoerce (getD [("events_log", JSON.arr (List.replicate 100 JSON.null)),
        ("events_log_compacted", JSON.num 105), ("context", JSON.obj [])] "events_log_compacted") =
          some c2 ∧
      (∃ n, es2 = takeLast n (List.replicate 205 JSON.null)) ∧
      c2 = 0 + (((List.replicate 205 JSON.null).length : Int) - (es2.length : Int)) :=
  c6_conservation [("events_log", JSON.arr (List.replicate 205 JSON.null))] _
    (List.replicate 205 JSON.null) 0 rfl rfl rfl

/-- C1 (amended): for every state on which compact succeeds, the
compacted `events_log` holds at most `MAX_EVENTS` (200) entries — the
100-entry bound of the claim only results when the input log exceeded 200
entries — and at most 25 entries whenever the serialized size of the
post-stage-2 result exceeds `MAX_JSON_BYTES`. -/
theorem c1_events_bound (s t ws2 : JObj) (ev : List JSON)
    (h : compact_world_state s = some t) (hpost : postStage2 s = some (ws2, ev)) :
    ∃ es2, pyListCoerce (getD t "events_log") = some es2 ∧ es2.length ≤ MAX_EVENTS ∧
      (MAX_JSON_BYTES < (jsonDumps (.obj ws2)).length → es2.length ≤ 25) := by
  obtain ⟨ws1, ev', ws2', hs1, hs2, hpost', hs3⟩ := compact_inv s t h
  rw [hpost] at hpost'
  injection hpost' with hpost'
  injection hpost' with he1 he2
  subst he1
  subst he2
  obtain ⟨es, hes, hcase⟩ := compactStage1_inv s ws1 ev hs1
  obtain ⟨ctx, hctx, hws2⟩ := compactStage2_inv ws1 ws2 hs2
  have hwev : lookup "events_log" ws2 = lookup "events_log" ws1 := by
    rw [hws2, lookup_setKey_ne _ _ _ _ (by decide)]
  rcases compactStage3_inv ws2 ev t hs3 with ⟨hsz, rfl⟩ | ⟨hsz, hnil, rfl⟩ | ⟨hsz, hne, c2', hc2', rfl⟩
  · rcases hcase with ⟨hle, hws1, hev⟩ | ⟨hgt, hev, c, hc, hws1⟩
    · refine ⟨es, ?_, by omega, fun hcon => absurd hcon (by omega)⟩
      unfold getD
      rw [hwev, hws1]
      exact hes
    · refine ⟨takeLast KEEP_EVENTS es, ?_, ?_, fun hcon => absurd hcon (by omega)⟩
      · unfold getD
        rw [hwev, hws1, lookup_setKey_ne _ _ _ _ (by decide), lookup_setKey_self]
        exact pyListCoerce_arr _
      · rw [takeLast_length]
        unfold KEEP_EVENTS MAX_EVENTS
        omega
  · rcases hcase with ⟨hle, hws1, hev⟩ | ⟨hgt, hev, c, hc, hws1⟩
    · refine ⟨es, ?_, by omega, fun _ => ?_⟩
      · unfold getD
        rw [hwev, hws1]
        exact hes
      · rw [hev] at hnil
        simp [hnil]
    · exfalso
      rw [hev] at hnil
      have := takeLast_length KEEP_EVENTS es
      rw [hnil] at this
      unfold KEEP_EVENTS at this
      unfold MAX_EVENTS at hgt
      simp at this
      omega
  · refine ⟨takeLast 25 ev, ?_, ?_, fun _ => ?_⟩
    · unfold getD
      rw [lookup_setKey_ne _ _ _ _ (by decide), lookup_setKey_self]
      exact pyListCoerce_arr _
    · rw [takeLast_length]
      unfold MAX_EVENTS
      omega
    · rw [takeLast_length]
      omega

theorem c1_witness :
    ∃ es2, pyListCoerce (getD [("context", JSON.obj [])] "events_log") = some es2 ∧
      es2.length ≤ MAX_EVENTS ∧
      (MAX_JSON_BYTES < (jsonDumps (.obj [("context", JSON.obj [])])).length → es2.length ≤ 25) :=
  c1_events_bound [] [("context", JSON.obj [])] [("context", JSON.obj [])] [] rfl rfl

/-- The 101-entry state refuting the 100-entry bound of claim C1. -/
def exC1 : JObj := [("events_log", JSON.arr (List.replicate 101 JSON.null))]

/-- The compacted form of `exC1`: the log is left at 101 entries. -/
def exC1post : JObj :=
  [("events_log", JSON.arr (List.replicate 101 JSON.null)), ("context", JSON.obj [])]

/-- C1 counterexample: a state with 101 log entries is already at rest
for compact (no threshold is crossed: 101 is not above 200, and the
serialized size stays far below 200,000), yet its compacted `events_log`
has 101 entries, which exceeds the claimed bound of 100. -/
theorem c1_counterexample :
    compact_world_state exC1 = some exC1post ∧
    postStage2 exC1 = some (exC1post, List.replicate 101 JSON.null) ∧
    (jsonDumps (.obj exC1post)).length ≤ MAX_JSON_BYTES ∧
    pyListCoerce (getD exC1post "events_log") = some (List.replicate 101 JSON.null) ∧
    ¬((List.replicate 101 (JSON.null)).length ≤ 100) :=
  ⟨rfl, rfl, by decide, rfl, by decide⟩

/-- C5 (amended): when the coerced `events_log` has more than
`MAX_EVENTS` (200) entries, the stage-1 trim keeps exactly the most
recent `KEEP_EVENTS` (100) entries and adds the dropped count to
`events_log_compacted`; the final compacted state holds exactly those
100 entries provided the serialized size of the post-stage-2 result does
not exceed `MAX_JSON_BYTES` — otherwise the stage-3 trim cuts the log
further, to the most recent 25. -/
theorem c5_trim_keeps_last_100 (s t ws2 : JObj) (ev es : List JSON) (c : Int)
    (hes : pyListCoerce (getD s "events_log") = some es)
    (hlen : MAX_EVENTS < es.length)
    (hc : pyIntCoerce (getD s "events_log_compacted") = some c)
    (h : compact_world_state s = some t)
    (hpost : postStage2 s = some (ws2, ev))
    (hsz : (jsonDumps (.obj ws2)).length ≤ MAX_JSON_BYTES) :
    getD t "events_log" = .arr (takeLast KEEP_EVENTS es) ∧
    getD t "events_log_compacted" = .num (c + ((es.length : Int) - (KEEP_EVENTS : Int))) := by
  obtain ⟨ctx, hctx, _⟩ := compact_context_shape s t h
  have h1 := compactStage1_trim s es c hes hlen hc
  have hctx1 : pyDictCoerce
      (getD (setKey "events_log_compacted" (.num (c + ((es.length : Int) - (KEEP_EVENTS : Int))))
        (setKey "events_log" (.arr (takeLast KEEP_EVENTS es)) s)) "context") = some ctx := by
    rw [getD_setKey_ne _ _ _ _ (by decide), getD_setKey_ne _ _ _ _ (by decide)]
    exact hctx
  have h2 := compactStage2_of _ ctx hctx1
  have hpost2 : postStage2 s = some
      (setKey "context" (.obj (clampCtxKey "news" (clampCtxKey "weather" ctx)))
        (setKey "events_log_compacted" (.num (c + ((es.length : Int) - (KEEP_EVENTS : Int))))
          (setKey "events_log" (.arr (takeLast KEEP_EVENTS es)) s)), takeLast KEEP_EVENTS es) := by
    simp only [postStage2, h1, h2]
  rw [hpost2] at hpost
  injection hpost with hpost
  injection hpost with he1 he2
  subst he1
  subst he2
  have h3 := h
  unfold compact_world_state at h3
  simp only [hpost2] at h3
  rw [compactStage3_small _ _ hsz] at h3
  injection h3 with h3
  subst h3
  constructor
  · unfold getD
    rw [lookup_setKey_ne _ _ _ _ (by decide), lookup_setKey_ne _ _ _ _ (by decide),
      lookup_setKey_self]
    rfl
  · unfold getD
    rw [lookup_setKey_ne _ _ _ _ (by decide), lookup_setKey_self]
    rfl

/-- The 205-entry state of scenario A. -/
def exA : JObj := [("events_log", JSON.arr (List.replicate 205 JSON.null))]

/-- The stored form of scenario A: the most recent 100 entries and an
`events_log_compacted` of 105. -/
def exAout : JObj :=
  [("events_log", JSON.arr (List.replicate 100 JSON.null)),
   ("events_log_compacted", JSON.num 105), ("context", JSON.obj [])]

theorem c5_witness :
    save_world_state "2024-01-01T00:00:00+00:00" exA =
      some ⟨exAout, "2024-01-01T00:00:00+00:00"⟩ ∧
    getD exAout "events_log" = .arr (List.replicate 100 JSON.null) ∧
    getD exAout "events_log_compacted" = .num 105 := by
  have h := c5_trim_keeps_last_100 exA exAout exAout (List.replicate 100 JSON.null)
    (List.replicate 205 JSON.null) 0 rfl (by decide) rfl rfl rfl (by decide)
  exact ⟨rfl, h.1, h.2⟩

theorem dumpsElems_replicate_len (n : Nat) (v : JSON) :
    (dumpsElems (List.replicate n v)).length = n * ((jsonDumps v).length + 2) := by
  induction n with
  | zero => simp [List.replicate_zero, dumpsElems]
  | succ m ih =>
    rw [List.replicate_succ]
    show (", " ++ jsonDumps v ++ dumpsElems (List.replicate m v)).length = _
    rw [String.length_append, String.length_append, ih, Nat.succ_mul]
    have h2 : (", " : String).length = 2 := rfl
    omega

/-- The bulky filler field of the C5 counterexample: serialized as 40,000
four-character strings, about 240,000 characters in total. -/
def blobC5 : JSON := JSON.arr (List.replicate 40000 (JSON.str "aa"))

/-- A state with 201 log entries whose serialized size stays above
`MAX_JSON_BYTES` even after the stage-1 trim. -/
def exC5 : JObj := [("blob", blobC5), ("events_log", JSON.arr (List.replicate 201 JSON.null))]

/-- The post-stage-2 form of `exC5`. -/
def exC5ws2 : JObj :=
  [("blob", blobC5), ("events_log", JSON.arr (List.replicate 100 JSON.null)),
   ("events_log_compacted", JSON.num 101), ("context", JSON.obj [])]

/-- The fields of `exC5ws2` after its head binding. -/
def exC5rest : JObj :=
  [("events_log", JSON.arr (List.replicate 100 JSON.null)),
   ("events_log_compacted", JSON.num 101), ("context", JSON.obj [])]

/-- The compacted form of `exC5`: only 25 log entries survive. -/
def exC5out : JObj :=
  [("blob", blobC5), ("events_log", JSON.arr (List.replicate 25 JSON.null)),
   ("events_log_compacted", JSON.num 176), ("context", JSON.obj [])]

theorem blobC5_dumps_len : (jsonDumps blobC5).length = 240000 := by
  show (jsonDumps (.arr (List.replicate 40000 (JSON.str "aa")))).length = 240000
  rw [show List.replicate 40000 (JSON.str "aa") =
      JSON.str "aa" :: List.replicate 39999 (JSON.str "aa") from rfl]
  show ("[" ++ jsonDumps (JSON.str "aa") ++ dumpsElems (List.replicate 39999 (JSON.str "aa")) ++
    "]").length = 240000
  rw [String.length_append, String.length_append, String.length_append,
    dumpsElems_replicate_len]
  have h1 : ("[" : String).length = 1 := rfl
  have h2 : ("]" : String).length = 1 := rfl
  have h3 : (jsonDumps (JSON.str "aa")).length = 4 := rfl
  omega

theorem exC5ws2_size_large : MAX_JSON_BYTES < (jsonDumps (.obj exC5ws2)).length := by
  rw [show jsonDumps (.obj exC5ws2) =
      "\x7b" ++ dumpsStr "blob" ++ ": " ++ jsonDumps blobC5 ++ dumpsFields exC5rest ++ "\x7d"
    from rfl]
  rw [String.length_append, String.length_append, String.length_append, String.length_append,
    String.length_append, blobC5_dumps_len]
  unfold MAX_JSON_BYTES
  omega

/-- C5 counterexample: `exC5` has 201 log entries (more than 200), yet
its compacted `events_log` holds 25 entries, not the most recent 100:
after the stage-1 trim the serialized size still exceeds 200,000, so the
aggressive stage-3 trim runs as well. -/
theorem c5_counterexample :
    pyListCoerce (getD exC5 "events_log") = some (List.replicate 201 JSON.null) ∧
    (200 : Nat) < (List.replicate 201 (JSON.null)).length ∧
    compact_world_state exC5 = some exC5out ∧
    getD exC5out "events_log" = JSON.arr (List.replicate 25 JSON.null) ∧
    (List.replicate 25 (JSON.null)).length ≠ 100 := by
  have h1 : compactStage1 exC5 = some
      ([("blob", blobC5), ("events_log", JSON.arr (List.replicate 100 JSON.null)),
        ("events_log_compacted", JSON.num 101)], List.replicate 100 JSON.null) := rfl
  have h2 : compactStage2
      [("blob", blobC5), ("events_log", JSON.arr (List.replicate 100 JSON.null)),
        ("events_log_compacted", JSON.num 101)] = some exC5ws2 := rfl
  have h3 : compactStage3 exC5ws2 (List.replicate 100 JSON.null) = some exC5out := by
    unfold compactStage3
    rw [if_pos exC5ws2_size_large]
    rfl
  exact ⟨rfl, by decide, compact_of_stages _ _ _ _ _ h1 h2 h3, rfl, by decide⟩

theorem compactStage3_nil (ws : JObj) : compactStage3 ws [] = some ws := by
  unfold compactStage3
  split
  · rfl
  · rfl

theorem compactStage3_fix (w : JObj) (keep : List JSON) (p : Int)
    (hk : lookup "events_log" w = some (.arr keep))
    (hp : lookup "events_log_compacted" w = some (.num p))
    (hlen : keep.length ≤ 25) :
    compactStage3 w keep = some w := by
  by_cases hsz : (jsonDumps (.obj w)).length ≤ MAX_JSON_BYTES
  · exact compactStage3_small w keep hsz
  · simp only [compactStage3]
    rw [if_pos (by omega)]
    by_cases hnil : keep.isEmpty
    · rw [if_pos hnil]
    · rw [if_neg hnil]
      rw [takeLast_of_le 25 keep hlen]
      rw [setKey_of_lookup _ _ _ hk]
      rw [show getD w "events_log_compacted" = .num p by unfold getD; rw [hp]; rfl]
      simp only [pyIntCoerce_num]
      rw [show (keep.length : Int) - (keep.length : Int) = 0 by omega]
      rw [show max (0 : Int) 0 = 0 from rfl, Int.add_zero]
      rw [setKey_of_lookup _ _ _ hp]

theorem compact_fixpoint (s t : JObj) (h : compact_world_state s = some t) :
    compact_world_state t = some t := by
  obtain ⟨ws1, ev, ws2, hs1, hs2, hpost, hs3⟩ := compact_inv s t h
  obtain ⟨ctx, hctx, hws2⟩ := compactStage2_inv ws1 ws2 hs2
  obtain ⟨es, hes, hcase1⟩ := compactStage1_inv s ws1 ev hs1
  have hctxT : lookup "context" t =
      some (.obj (clampCtxKey "news" (clampCtxKey "weather" ctx))) := by
    rw [stage3_preserves ws2 ev t hs3 "context" (by decide) (by decide), hws2, lookup_setKey_self]
  have key : ∃ evT, pyListCoerce (getD t "events_log") = some evT ∧
      evT.length ≤ MAX_EVENTS ∧ compactStage3 t evT = some t := by
    rcases compactStage3_inv ws2 ev t hs3 with ⟨hsz, rfl⟩ | ⟨hsz, hnil, rfl⟩ |
      ⟨hsz, hne, c2', hc2', rfl⟩
    · -- stage 3 did nothing: the size is small
      rcases hcase1 with ⟨hle, hws1, hev⟩ | ⟨hgt, hev, c, hc, hws1⟩
      · refine ⟨es, ?_, hle, compactStage3_small _ _ hsz⟩
        unfold getD
        rw [hws2, lookup_setKey_ne _ _ _ _ (by decide), hws1]
        exact hes
      · refine ⟨takeLast KEEP_EVENTS es, ?_, ?_, compactStage3_small _ _ hsz⟩
        · unfold getD
          rw [hws2, lookup_setKey_ne _ _ _ _ (by decide), hws1,
            lookup_setKey_ne _ _ _ _ (by decide), lookup_setKey_self]
          exact pyListCoerce_arr _
        · rw [takeLast_length]
          unfold KEEP_EVENTS MAX_EVENTS
          omega
    · -- stage 3 saw an oversized document but an empty local events list
      rcases hcase1 with ⟨hle, hws1, hev⟩ | ⟨hgt, hev, c, hc, hws1⟩
      · refine ⟨es, ?_, hle, ?_⟩
        · unfold getD
          rw [hws2, lookup_setKey_ne _ _ _ _ (by decide), hws1]
          exact hes
        · have hesnil : es = [] := by
            rw [hev] at hnil
            exact hnil
          rw [hesnil]
          exact compactStage3_nil _
      · exfalso
        rw [hev] at hnil
        have hl := takeLast_length KEEP_EVENTS es
        rw [hnil] at hl
        unfold KEEP_EVENTS at hl
        unfold MAX_EVENTS at hgt
        simp at hl
        omega
    · -- stage 3 trimmed to the last 25
      have hk : lookup "events_log"
          (setKey "events_log_compacted"
            (.num (c2' + max 0 ((ev.length : Int) - ((takeLast 25 ev).length : Int))))
            (setKey "events_log" (.arr (takeLast 25 ev)) ws2)) =
          some (.arr (takeLast 25 ev)) := by
        rw [lookup_setKey_ne _ _ _ _ (by decide), lookup_setKey_self]
      have hp : lookup "events_log_compacted"
          (setKey "events_log_compacted"
            (.num (c2' + max 0 ((ev.length : Int) - ((takeLast 25 ev).length : Int))))
            (setKey "events_log" (.arr (takeLast 25 ev)) ws2)) =
          some (.num (c2' + max 0 ((ev.length : Int) - ((takeLast 25 ev).length : Int)))) :=
        lookup_setKey_self _ _ _
      have hlen25 : (takeLast 25 ev).length ≤ 25 := by
        rw [takeLast_length]
        omega
      refine ⟨takeLast 25 ev, ?_, ?_, compactStage3_fix _ _ _ hk hp hlen25⟩
      · unfold getD
        rw [hk]
        exact pyListCoerce_arr _
      · unfold MAX_EVENTS
        omega
  obtain ⟨evT, hevT, hleT, hs3T⟩ := key
  have hstage1T := compactStage1_no_trim t evT hevT hleT
  have hctxdT : pyDictCoerce (getD t "context") =
      some (clampCtxKey "news" (clampCtxKey "weather" ctx)) := by
    rw [show getD t "context" = .obj (clampCtxKey "news" (clampCtxKey "weather" ctx)) by
      unfold getD; rw [hctxT]; rfl]
    exact pyDictCoerce_obj _
  have hstage2T : compactStage2 t = some t := by
    rw [compactStage2_of t _ hctxdT, clampWN_idem, setKey_of_lookup _ _ _ hctxT]
  exact compact_of_stages t t t evT t hstage1T hstage2T hs3T

/-- C2: compact is idempotent: applying compact to the result of compact
returns that result unchanged (and when compact raises, composing it with
itself raises in the same way, so the composite equals the single
application for every state). -/
theorem c2_compact_idempotent (s : JObj) :
    (compact_world_state s).bind compact_world_state = compact_world_state s := by
  cases h : compact_world_state s with
  | none => rfl
  | some t =>
    show compact_world_state t = some t
    exact compact_fixpoint s t h
